import Mathlib

/-!
# Verification of the `lesson_12` contact manager

Shallow embedding of `src/lesson_12.py`: a command-line contact manager with
validated fields (Name, Phone, Birthday), Records, an AddressBook, and a
prefix-dispatched command layer.  Python exceptions are modelled with an
explicit error type; mutable state (the module-level `my_contacts` dict) is
threaded through the handlers explicitly.
-/

/-- The Python exception classes that the program raises and catches. -/
inductive PyError where
  | valueError
  | indexError
  | keyError
deriving DecidableEq

/-! ## Character/string helpers (ASCII fragments of the Python behaviour) -/

/-- ASCII decimal digit.  Models `\d` of the source's regexes.  (Python's `\d`
additionally accepts non-ASCII Unicode decimal digits; the model restricts the
character domain to ASCII, which covers every input the claims mention.) -/
def isDigitChar (c : Char) : Bool := '0' ≤ c && c ≤ '9'

/-- Python `str.split()` whitespace set (ASCII part). -/
def isSpaceChar (c : Char) : Bool :=
  c == ' ' || c == '\t' || c == '\n' || c == '\x0b' || c == '\x0c' || c == '\r'

/-- Helper for `pySplit`: accumulates the current token (reversed) while
scanning the characters. -/
def pySplitAux : List Char → List Char → List String
  | [], acc => if acc.isEmpty then [] else [String.mk acc.reverse]
  | c :: cs, acc =>
    if isSpaceChar c then
      if acc.isEmpty then pySplitAux cs [] else String.mk acc.reverse :: pySplitAux cs []
    else
      pySplitAux cs (c :: acc)

/-- Python `str.split()` with no argument: split on runs of whitespace,
discarding leading/trailing whitespace; no empty tokens are produced. -/
def pySplit (s : String) : List String := pySplitAux s.data []

/-- ASCII lower-casing of one character; models Python `str.lower` on the
ASCII fragment. -/
def lowerChar (c : Char) : Char :=
  if 'A' ≤ c && c ≤ 'Z' then Char.ofNat (c.toNat + 32) else c

/-- Python `str.lower()` (ASCII fragment). -/
def pyLower (s : String) : String := String.mk (s.data.map lowerChar)

/-- `a.startswith b` on character lists. -/
def startsWithL : List Char → List Char → Bool
  | _, [] => true
  | [], _ :: _ => false
  | c :: cs, k :: ks => c == k && startsWithL cs ks

/-- Python `text.startswith(keyword)`. -/
def pyStartsWith (text keyword : String) : Bool := startsWithL text.data keyword.data

/-! ## The phone regex `^\+?\d{9,15}$` -/

/-- Drops one leading `'+'` if present: the `\+?` part of the pattern. -/
def stripPlus : List Char → List Char
  | [] => []
  | c :: r => if c = '+' then r else c :: r

/-- `\d{9,15}` consuming the whole remaining input: 9 to 15 ASCII digits. -/
def digitRun (t : List Char) : Bool :=
  t.all isDigitChar && 9 ≤ t.length && t.length ≤ 15

/-- The pattern `^\+?\d{9,15}$` read as a plain (spec-level) regular
expression, where `$` means end of input: an optional `'+'` followed by 9-15
digits and nothing else. -/
def specPhoneMatchL (l : List Char) : Bool := digitRun (stripPlus l)

/-- Spec-level match on strings. -/
def specPhoneMatch (s : String) : Bool := specPhoneMatchL s.data

/-- Embeds `re.match(r"^\+?\d{9,15}$", value)` from the source.  In Python,
`$` matches at the end of the string *or just before a newline at the end of
the string* (re module documentation), so the pattern accepts an optional
plus and 9-15 digits, optionally followed by one final newline character. -/
def pyPhoneMatchL (l : List Char) : Bool :=
  let t := stripPlus l
  digitRun t || (t.getLast? == some '\n' && digitRun t.dropLast)

/-- Python-semantics match on strings. -/
def pyPhoneMatch (s : String) : Bool := pyPhoneMatchL s.data

/-! ## Fields -/

/-- `Name(value)`: raises `ValueError` when the value is falsy (the empty
string); otherwise stores the value verbatim. -/
def Name.new (v : String) : Except PyError String :=
  if v = "" then .error .valueError else .ok v

/-- The `Phone` field: a stored string value.  The source's property setter
assigns `_value` *before* calling `validate()`, so a `Phone` object can hold
a non-matching string at the moment the `ValueError` is raised. -/
structure Phone where
  value : String
deriving DecidableEq

/-- `Phone.validate`: raises `ValueError` unless the stored value matches the
phone pattern. -/
def Phone.validate (p : Phone) : Option PyError :=
  if pyPhoneMatch p.value then none else some .valueError

/-- The `value` property setter: stores the new value first, then validates.
Returns the object state after the assignment together with the exception the
setter raises, if any. -/
def Phone.setValue (_p : Phone) (v : String) : Phone × Option PyError :=
  let p' : Phone := ⟨v⟩
  (p', p'.validate)

/-- `Phone(value)`: construction runs the setter; when validation raises, the
half-built object is discarded and the exception propagates. -/
def Phone.new (v : String) : Except PyError Phone :=
  let p : Phone := ⟨v⟩
  match p.validate with
  | none => .ok p
  | some e => .error e

/-- A Python `datetime.date` value. -/
structure DateV where
  year : Nat
  month : Nat
  day : Nat
deriving DecidableEq

/-! ## Records and the address book -/

/-- `Record`: one Name (a validated string), an ordered list of Phones, and an
optional Birthday (`Birthday.__init__(None)` leaves `_value = None`). -/
structure Record where
  name : String
  phones : List Phone
  birthday : Option DateV
deriving DecidableEq

/-- `Record(name)` as called by the handlers (no phone, no birthday):
validates the name, starts with an empty phone list and an unset birthday. -/
def Record.new (name : String) : Except PyError Record :=
  match Name.new name with
  | .error e => .error e
  | .ok n => .ok ⟨n, [], none⟩

/-- `Record.add_phone`: builds a `Phone` (validating) and appends it. -/
def Record.add_phone (r : Record) (phone : String) : Except PyError Record :=
  match Phone.new phone with
  | .error e => .error e
  | .ok p => .ok { r with phones := r.phones ++ [p] }

/-- The loop body of `Record.edit_phone`: walks the phone list, and at the
first phone whose value equals `oldp` runs the setter with `newp`.  Returns
the phone list as left in memory together with the returned boolean or the
propagated exception.  Note that on a validation failure the matched `Phone`
has already been overwritten (the setter assigns before validating). -/
def editPhoneList : List Phone → String → String → List Phone × Except PyError Bool
  | [], _, _ => ([], .ok false)
  | p :: ps, oldp, newp =>
    if p.value = oldp then
      match p.setValue newp with
      | (p', none) => (p' :: ps, .ok true)
      | (p', some e) => (p' :: ps, .error e)
    else
      let (ps', r) := editPhoneList ps oldp newp
      (p :: ps', r)

/-- `Record.edit_phone(old_phone, new_phone)`. -/
def Record.edit_phone (r : Record) (oldp newp : String) : Record × Except PyError Bool :=
  let (phones', res) := editPhoneList r.phones oldp newp
  ({ r with phones := phones' }, res)

/-- The `my_contacts` address book: a name-keyed mapping with Python `dict`
semantics (insertion order preserved; overwriting keeps the key's position). -/
abbrev Book := List (String × Record)

/-- `my_contacts[name]` as an optional lookup. -/
def bookGet : Book → String → Option Record
  | [], _ => none
  | (k, r) :: rest, name => if k = name then some r else bookGet rest name

/-- `my_contacts[name] = record`: overwrite in place, or append a new entry. -/
def bookSet : Book → String → Record → Book
  | [], name, r => [(name, r)]
  | (k, r0) :: rest, name, r =>
    if k = name then (k, r) :: rest else (k, r0) :: bookSet rest name r

/-! ## Command handlers

Each handler returns the address book as left in memory and either a reply
string or the exception it raises; the `input_error` decorator translates the
three caught exception classes into fixed messages. -/

/-- The `input_error` decorator: converts `KeyError`, `ValueError` and
`IndexError` raised by the wrapped handler into fixed user-facing strings. -/
def input_error (f : Book → String → Book × Except PyError String)
    (book : Book) (line : String) : Book × String :=
  match f book line with
  | (book', .ok s) => (book', s)
  | (book', .error .keyError) => (book', "Contact with that name not found.")
  | (book', .error .valueError) => (book', "Please enter a valid command.")
  | (book', .error .indexError) =>
    (book', "Please enter both name and phone number, separated by a space.")

/-- Body of the `hello` handler. -/
def hello_core (book : Book) (_line : String) : Book × Except PyError String :=
  (book, .ok "How can I help you?")

/-- Body of the `add` handler: `_, name, phone = args[0].split()` (a
three-way unpacking that raises `ValueError` on any other token count), then
`Record(name)`, `record.add_phone(phone)`, `my_contacts[name] = record`. -/
def add_core (book : Book) (line : String) : Book × Except PyError String :=
  match pySplit line with
  | [_, name, phoneStr] =>
    match Record.new name with
    | .error e => (book, .error e)
    | .ok r =>
      match r.add_phone phoneStr with
      | .error e => (book, .error e)
      | .ok r' =>
        (bookSet book name r',
         .ok ("Contact " ++ name ++ " with phone " ++ phoneStr ++ " has been added."))
  | _ => (book, .error .valueError)

/-- Body of the `change` handler: three-way unpacking, then if the name is
present, `record.edit_phone(record.phones[0].value, phone)` — the subscript
`record.phones[0]` raises `IndexError` on an empty phone list.  The record is
mutated in place, so even when `edit_phone` raises, the (possibly invalid)
phone value stays stored in the book. -/
def change_core (book : Book) (line : String) : Book × Except PyError String :=
  match pySplit line with
  | [_, name, phoneStr] =>
    match bookGet book name with
    | some r =>
      match r.phones with
      | [] => (book, .error .indexError)
      | p0 :: _ =>
        let (r', res) := r.edit_phone p0.value phoneStr
        let book' := bookSet book name r'
        match res with
        | .ok _ => (book', .ok ("Phone number for contact " ++ name ++ " changed."))
        | .error e => (book', .error e)
    | none => (book, .ok ("Contact with name " ++ name ++ " not found."))
  | _ => (book, .error .valueError)

/-- The `hello` handler (wrapped). -/
def hello : Book → String → Book × String := input_error hello_core

/-- The `add` handler (wrapped). -/
def add : Book → String → Book × String := input_error add_core

/-- The `change` handler (wrapped). -/
def change : Book → String → Book × String := input_error change_core

/-! ## Calendar arithmetic (Python `datetime`)

The model mirrors CPython's `datetime` module: `date(y, m, d)` raises
`ValueError` when the day is out of range for the month, and subtracting two
dates yields their difference in proleptic-Gregorian ordinal numbers
(`toordinal`, with 0001-01-01 having ordinal 1). -/

/-- Gregorian leap-year rule (`calendar.isleap`). -/
def isLeapYear (y : Nat) : Bool := (y % 4 == 0 && y % 100 != 0) || y % 400 == 0

/-- Days in a month (`_days_in_month`); 0 for an out-of-range month index. -/
def daysInMonth (y m : Nat) : Nat :=
  match m with
  | 1 => 31 | 3 => 31 | 5 => 31 | 7 => 31 | 8 => 31 | 10 => 31 | 12 => 31
  | 4 => 30 | 6 => 30 | 9 => 30 | 11 => 30
  | 2 => if isLeapYear y then 29 else 28
  | _ => 0

/-- The argument check of `datetime.date(y, m, d)` (year at least `MINYEAR = 1`,
month 1-12, day 1-last day of month). -/
def validDate (d : DateV) : Bool :=
  1 ≤ d.year && 1 ≤ d.month && d.month ≤ 12 && 1 ≤ d.day && d.day ≤ daysInMonth d.year d.month

/-- Python `date` comparison `<`: calendar (lexicographic) order. -/
def dateLt (a b : DateV) : Bool :=
  a.year < b.year ||
  (a.year == b.year && (a.month < b.month || (a.month == b.month && a.day < b.day)))

/-- Python `date` comparison `<=`. -/
def dateLe (a b : DateV) : Bool :=
  a.year < b.year ||
  (a.year == b.year && (a.month < b.month ||
    (a.month == b.month && a.day ≤ b.day)))

/-- Days in the years `1 .. p` (CPython `_days_before_year(p+1)`):
`365*p + p/4 - p/100 + p/400`. -/
def daysUpToYear (p : Nat) : Int :=
  365 * (p : Int) + ((p / 4 : Nat) : Int) - ((p / 100 : Nat) : Int) + ((p / 400 : Nat) : Int)

/-- Days before January 1st of year `y` (CPython `_days_before_year`). -/
def daysBeforeYear (y : Nat) : Int := daysUpToYear (y - 1)

/-- Days in year `y` before the first of month `m`
(CPython `_days_before_month`). -/
def daysBeforeMonth (y m : Nat) : Nat :=
  (match m with
   | 1 => 0 | 2 => 31 | 3 => 59 | 4 => 90 | 5 => 120 | 6 => 151
   | 7 => 181 | 8 => 212 | 9 => 243 | 10 => 273 | 11 => 304 | 12 => 334
   | _ => 0)
  + (if 2 < m && isLeapYear y then 1 else 0)

/-- `date.toordinal()`: proleptic Gregorian ordinal; 0001-01-01 is day 1. -/
def toOrdinal (d : DateV) : Int :=
  daysBeforeYear d.year + (daysBeforeMonth d.year d.month : Int) + (d.day : Int)

/-- `datetime(y, m, d)` as used by `days_to_birthday`: the constructor raises
`ValueError` for an invalid year/month/day combination. -/
def pyDate (y m d : Nat) : Except PyError DateV :=
  if validDate ⟨y, m, d⟩ then .ok ⟨y, m, d⟩ else .error .valueError

/-- `Birthday.days_to_birthday()`, with the stored `_value` and "today"
(`datetime.now().date()`) passed explicitly: `None` when unset; otherwise
rebuild this year's occurrence of the stored month/day, move to next year's
when it is strictly before today, and return the date difference in days.
Either `datetime(...)` call propagates `ValueError` when the month/day does
not exist in that year (Feb 29 outside leap years). -/
def days_to_birthday (stored : Option DateV) (today : DateV) :
    Except PyError (Option Int) :=
  match stored with
  | none => .ok none
  | some b =>
    match pyDate today.year b.month b.day with
    | .error e => .error e
    | .ok nb =>
      if dateLt nb today then
        match pyDate (today.year + 1) b.month b.day with
        | .error e => .error e
        | .ok nb2 => .ok (some (toOrdinal nb2 - toOrdinal today))
      else
        .ok (some (toOrdinal nb - toOrdinal today))

/-- Spec-side definition ("the next occurrence of the stored month/day on or
after today"): this year's occurrence, unless it falls strictly before today,
in which case next year's. -/
def nextOccurrence (t : DateV) (m d : Nat) : DateV :=
  if dateLt ⟨t.year, m, d⟩ t then ⟨t.year + 1, m, d⟩ else ⟨t.year, m, d⟩

/-! ## Book lemmas -/

/-! ## Rendering (`__str__`) -/

/-- Zero-padded two-digit number (strftime `%d` / `%m`). -/
def pad2 (n : Nat) : String := if n < 10 then "0" ++ Nat.repr n else Nat.repr n

/-- Zero-padded four-digit year (strftime `%Y`). -/
def pad4 (n : Nat) : String :=
  if n < 10 then "000" ++ Nat.repr n
  else if n < 100 then "00" ++ Nat.repr n
  else if n < 1000 then "0" ++ Nat.repr n
  else Nat.repr n

/-- `Name.__str__` (inherited `Field.__str__`). -/
def renderName (n : String) : String := "Name: " ++ n

/-- `Phone.__str__`. -/
def renderPhone (p : Phone) : String := "Phone: " ++ p.value

/-- `Birthday.__str__`: the stored date formatted back to `dd.mm.yyyy`. -/
def renderBirthday (d : DateV) : String :=
  "Birthday: " ++ pad2 d.day ++ "." ++ pad2 d.month ++ "." ++ pad4 d.year

/-- Python `", ".join(xs)`. -/
def joinComma : List String → String
  | [] => ""
  | [s] => s
  | s :: rest => s ++ ", " ++ joinComma rest

/-- `Record.__str__`: name, comma-joined phones, birthday only when set. -/
def renderRecord (r : Record) : String :=
  renderName r.name ++ ", " ++ joinComma (r.phones.map renderPhone)
    ++ (match r.birthday with
        | some d => ", " ++ renderBirthday d
        | none => "")

/-! ## `AddressBook.iterator` -/

/-- The index arithmetic of `for i in range(0, len(records), N)` together with
the slice `records[i:i+N]`, as one pure function: the list of slices taken at
indices `0, N, 2N, ...` strictly below `len(records)` (there are
`ceil(len/N)` of them). -/
def pyChunks (l : List α) (n : Nat) : List (List α) :=
  (List.range' 0 ((l.length + n - 1) / n) n).map fun i => (l.drop i).take n

/-- `AddressBook.iterator(N)`: the full (finite) sequence of batches the
generator yields — each batch renders the records of one slice. -/
def AddressBook.iterator (book : Book) (n : Nat) : List (List String) :=
  let records := book.map Prod.snd
  (List.range' 0 ((records.length + n - 1) / n) n).map
    fun i => ((records.drop i).take n).map renderRecord

/-! ## Command layer -/

/-- Python `str.join`-free concatenation of rendered records (the `show_all`
accumulator loop). -/
def concatAll : List String → String
  | [] => ""
  | s :: rest => s ++ concatAll rest

/-- Body of the `phone` handler: two-way unpacking (any other token count
raises `ValueError`), then rendered record or a not-defined message. -/
def phone_core (book : Book) (line : String) : Book × Except PyError String :=
  match pySplit line with
  | [_, name] =>
    match bookGet book name with
    | some r =>
      (book, .ok ("Phone number for contact " ++ name ++ " is " ++ renderRecord r ++ "."))
    | none => (book, .ok ("Contact with name " ++ name ++ " is not defined."))
  | _ => (book, .error .valueError)

/-- Body of the `show_all` handler. -/
def show_all_core (book : Book) (_line : String) : Book × Except PyError String :=
  if book.isEmpty then (book, .ok "You have no contacts.")
  else (book, .ok (concatAll (book.map fun nr => renderRecord nr.2 ++ "\n")))

/-- Body of the `exit` handler. -/
def exit_core (book : Book) (_line : String) : Book × Except PyError String :=
  (book, .ok "Goodbye!")

/-- The `phone` handler (wrapped). -/
def phone : Book → String → Book × String := input_error phone_core

/-- The `show_all` handler (wrapped). -/
def show_all : Book → String → Book × String := input_error show_all_core

/-- The `exit` handler (wrapped). -/
def exit : Book → String → Book × String := input_error exit_core

/-- The command tags, standing for the handler functions the `COMMANDS` dict
maps to their keywords. -/
inductive Cmd where
  | hello
  | add
  | change
  | phone
  | showAll
  | exit
deriving DecidableEq

/-- The `COMMANDS` dict: handler/keyword pairs in declared insertion order. -/
def COMMANDS : List (Cmd × String) :=
  [(.hello, "hello"), (.add, "add"), (.change, "change"),
   (.phone, "phone"), (.showAll, "show all"), (.exit, "exit")]

/-- `command_handler(text)`: lower-case the line and return the first
command whose keyword is a prefix of it, or `(None, "")`. -/
def command_handler (text : String) : Option Cmd × String :=
  match COMMANDS.find? (fun ck => pyStartsWith (pyLower text) ck.2) with
  | some ck => (some ck.1, text)
  | none => (none, "")

/-- Dispatch a command tag to its handler. -/
def runCmd : Cmd → Book → String → Book × String
  | .hello => hello
  | .add => add
  | .change => change
  | .phone => phone
  | .showAll => show_all
  | .exit => exit

/-- One iteration of `main`'s REPL loop on one input line: the new address
book, the line printed, and whether the loop terminates afterwards (it
terminates only when the selected handler is `exit`). -/
def mainStep (book : Book) (input : String) : Book × String × Bool :=
  match command_handler input with
  | (none, _) => (book, "Unknown command, try again.", false)
  | (some c, data) =>
    let (book', out) := runCmd c book data
    (book', out, c == Cmd.exit)


/-- Recursive reformulation of the slice loop: first `n` elements, then the
chunks of the rest. -/
def chunksRec (n : Nat) : List α → List (List α)
  | [] => []
  | c :: cs => (c :: cs.take (n - 1)) :: chunksRec n (cs.drop (n - 1))
termination_by l => l.length
decreasing_by simp; omega

/-- A five-record book used to witness the batching property. -/
def iterBook5 : Book :=
  [("a1", ⟨"a1", [⟨"111111111"⟩], none⟩),
   ("a2", ⟨"a2", [⟨"222222222"⟩], none⟩),
   ("a3", ⟨"a3", [⟨"333333333"⟩], none⟩),
   ("a4", ⟨"a4", [⟨"444444444"⟩], none⟩),
   ("a5", ⟨"a5", [⟨"555555555"⟩], none⟩)]

/-! # Theorems -/

/-! ## Calendar lemmas -/

theorem daysUpToYear_succ (p : Nat) :
    daysUpToYear (p + 1) = daysUpToYear p + 365 + (if isLeapYear (p + 1) then 1 else 0) := by
  simp only [daysUpToYear, Nat.succ_div, isLeapYear, Bool.or_eq_true, Bool.and_eq_true,
    beq_iff_eq, bne_iff_ne, ne_eq]
  split_ifs <;> push_cast <;> omega

theorem daysUpToYear_mono {p q : Nat} (h : p ≤ q) : daysUpToYear p ≤ daysUpToYear q := by
  induction q with
  | zero => simp_all
  | succ n ih =>
    rcases Nat.lt_or_ge p (n + 1) with hlt | hge
    · have := ih (by omega)
      rw [daysUpToYear_succ]
      split_ifs <;> omega
    · have : p = n + 1 := by omega
      simp [this]

theorem daysBeforeYear_succ (y : Nat) (hy : 1 ≤ y) :
    daysBeforeYear (y + 1) = daysBeforeYear y + 365 + (if isLeapYear y then 1 else 0) := by
  have h : y = (y - 1) + 1 := by omega
  unfold daysBeforeYear
  rw [show y + 1 - 1 = (y - 1) + 1 by omega, daysUpToYear_succ, ← h]

theorem daysBeforeMonth_add_le (y m : Nat) (h1 : 1 ≤ m) (h2 : m ≤ 12) :
    daysBeforeMonth y m + daysInMonth y m ≤ 365 + (if isLeapYear y then 1 else 0) := by
  interval_cases m <;> simp [daysBeforeMonth, daysInMonth] <;> split_ifs <;> omega

theorem daysBeforeMonth_cumul (y m m' : Nat) (h1 : 1 ≤ m) (h : m < m') (h2 : m' ≤ 12) :
    daysBeforeMonth y m + daysInMonth y m ≤ daysBeforeMonth y m' := by
  have hm : m ≤ 11 := by omega
  interval_cases m <;> interval_cases m' <;>
    simp [daysBeforeMonth, daysInMonth] <;> split_ifs <;> omega

/-- `toordinal` is monotone along calendar order on valid dates. -/
theorem toOrdinal_mono (a b : DateV) (ha : validDate a = true) (hb : validDate b = true)
    (hle : dateLe a b = true) : toOrdinal a ≤ toOrdinal b := by
  simp only [validDate, dateLe, Bool.and_eq_true, Bool.or_eq_true, beq_iff_eq,
    decide_eq_true_eq] at ha hb hle
  obtain ⟨⟨⟨⟨hay, ham1⟩, ham2⟩, had1⟩, had2⟩ := ha
  obtain ⟨⟨⟨⟨hby, hbm1⟩, hbm2⟩, hbd1⟩, hbd2⟩ := hb
  unfold toOrdinal
  rcases hle with hylt | ⟨hyeq, hmlt | ⟨hmeq, hdle⟩⟩
  · -- strictly earlier year
    have hstep := daysBeforeYear_succ a.year hay
    have hmono : daysBeforeYear (a.year + 1) ≤ daysBeforeYear b.year := by
      unfold daysBeforeYear
      exact daysUpToYear_mono (by omega)
    have hbound := daysBeforeMonth_add_le a.year a.month ham1 ham2
    have h0 : (0 : Nat) ≤ daysBeforeMonth b.year b.month := Nat.zero_le _
    split_ifs at hstep hbound <;> omega
  · -- same year, strictly earlier month
    rw [hyeq]
    have hcum := daysBeforeMonth_cumul b.year a.month b.month ham1 (by omega) hbm2
    rw [hyeq] at had2
    omega
  · -- same year and month
    rw [hyeq, hmeq]
    omega

/-- A year right after a leap year is never a leap year. -/
theorem isLeapYear_succ_false (y : Nat) (h : isLeapYear y = true) :
    isLeapYear (y + 1) = false := by
  simp only [isLeapYear, Bool.or_eq_true, Bool.and_eq_true, beq_iff_eq, bne_iff_ne,
    ne_eq] at h
  simp only [isLeapYear, Bool.or_eq_false_iff, Bool.and_eq_false_iff, beq_eq_false_iff_ne,
    bne_eq_false_iff_eq, ne_eq]
  omega

/-! ## Book lemmas -/

theorem bookGet_bookSet_self (book : Book) (name : String) (r : Record) :
    bookGet (bookSet book name r) name = some r := by
  induction book with
  | nil => simp [bookGet, bookSet]
  | cons hd tl ih =>
    obtain ⟨k, r0⟩ := hd
    by_cases h : k = name
    · simp [bookGet, bookSet, h]
    · simp [bookGet, bookSet, h, ih]

/-! ## Order helpers for dates -/

theorem dateLt_false_dateLe {a b : DateV} (h : dateLt a b = false) : dateLe b a = true := by
  simp only [dateLt, Bool.or_eq_false_iff, Bool.and_eq_false_iff, beq_eq_false_iff_ne,
    ne_eq, decide_eq_false_iff_not, not_lt, beq_iff_eq] at h
  simp only [dateLe, Bool.or_eq_true, Bool.and_eq_true, beq_iff_eq, decide_eq_true_eq]
  omega

/-- **C2.** `days_to_birthday` returns null (`None`) when no birthday is set;
otherwise it returns the day count from today to the next occurrence of the
stored month/day on or after today — `nextOccurrence` picks this year's
occurrence when it has not yet passed and next year's when it has; the result
is the date difference in days, is never negative, is 0 exactly when the
occurrence is today, and `nextOccurrence` really is the earliest occurrence of
that month/day on or after today (fourth conjunct, for an arbitrary candidate
year `y`). -/
theorem days_to_birthday_correct (t b : DateV) (y : Nat)
    (ht : validDate t = true)
    (hb1 : validDate ⟨t.year, b.month, b.day⟩ = true)
    (hb2 : validDate ⟨t.year + 1, b.month, b.day⟩ = true)
    (hy : dateLt ⟨y, b.month, b.day⟩ t = false) :
    days_to_birthday none t = .ok none
    ∧ days_to_birthday (some b) t
        = .ok (some (toOrdinal (nextOccurrence t b.month b.day) - toOrdinal t))
    ∧ dateLt (nextOccurrence t b.month b.day) t = false
    ∧ dateLe (nextOccurrence t b.month b.day) ⟨y, b.month, b.day⟩ = true
    ∧ 0 ≤ toOrdinal (nextOccurrence t b.month b.day) - toOrdinal t
    ∧ (nextOccurrence t b.month b.day = t
        → toOrdinal (nextOccurrence t b.month b.day) - toOrdinal t = 0) := by
  have hocc : dateLt (nextOccurrence t b.month b.day) t = false := by
    unfold nextOccurrence
    by_cases hlt : dateLt ⟨t.year, b.month, b.day⟩ t = true
    · simp only [hlt, if_true]
      simp only [dateLt, Bool.or_eq_false_iff, Bool.and_eq_false_iff, beq_eq_false_iff_ne,
        ne_eq, decide_eq_false_iff_not, not_lt, beq_iff_eq]
      omega
    · simp only [Bool.not_eq_true] at hlt
      simp [hlt]
  refine ⟨rfl, ?_, hocc, ?_, ?_, ?_⟩
  · unfold days_to_birthday pyDate nextOccurrence
    by_cases hlt : dateLt ⟨t.year, b.month, b.day⟩ t = true
    · simp [hb1, hb2, hlt]
    · simp only [Bool.not_eq_true] at hlt
      simp [hb1, hlt]
  · unfold nextOccurrence
    simp only [dateLt] at hy
    simp at hy
    by_cases hlt : dateLt ⟨t.year, b.month, b.day⟩ t = true
    · have hlt' := hlt
      simp only [dateLt] at hlt'
      simp at hlt'
      simp only [hlt, if_true, dateLe]
      simp
      omega
    · have hlt' := eq_false_of_ne_true hlt
      simp only [dateLt] at hlt'
      simp at hlt'
      simp [hlt, dateLe]
      omega
  · have hvalid : validDate (nextOccurrence t b.month b.day) = true := by
      unfold nextOccurrence
      by_cases hlt : dateLt ⟨t.year, b.month, b.day⟩ t = true
      · simp [hlt, hb2]
      · simp only [Bool.not_eq_true] at hlt
        simp [hlt, hb1]
    have := toOrdinal_mono t (nextOccurrence t b.month b.day) ht hvalid
      (dateLt_false_dateLe hocc)
    omega
  · intro h
    rw [h]
    omega

/-- Witness for `days_to_birthday_correct`: today 2024-01-10 and a stored
birthday of 1990-06-15; also checks the spec's two worked examples
(month/day 01-05 gives 361 days, month/day 02-01 gives 22 days). -/
theorem days_to_birthday_correct_witness :
    validDate ⟨2024, 1, 10⟩ = true
    ∧ validDate ⟨2024, 6, 15⟩ = true
    ∧ validDate ⟨2025, 6, 15⟩ = true
    ∧ dateLt ⟨2024, 6, 15⟩ ⟨2024, 1, 10⟩ = false
    ∧ (days_to_birthday none ⟨2024, 1, 10⟩ = .ok none
       ∧ days_to_birthday (some ⟨1990, 6, 15⟩) ⟨2024, 1, 10⟩
           = .ok (some (toOrdinal (nextOccurrence ⟨2024, 1, 10⟩ 6 15)
                         - toOrdinal ⟨2024, 1, 10⟩))
       ∧ dateLt (nextOccurrence ⟨2024, 1, 10⟩ 6 15) ⟨2024, 1, 10⟩ = false
       ∧ dateLe (nextOccurrence ⟨2024, 1, 10⟩ 6 15) ⟨2024, 6, 15⟩ = true
       ∧ 0 ≤ toOrdinal (nextOccurrence ⟨2024, 1, 10⟩ 6 15) - toOrdinal ⟨2024, 1, 10⟩
       ∧ (nextOccurrence ⟨2024, 1, 10⟩ 6 15 = ⟨2024, 1, 10⟩
           → toOrdinal (nextOccurrence ⟨2024, 1, 10⟩ 6 15)
               - toOrdinal ⟨2024, 1, 10⟩ = 0))
    ∧ days_to_birthday (some ⟨1990, 1, 5⟩) ⟨2024, 1, 10⟩ = .ok (some 361)
    ∧ days_to_birthday (some ⟨1990, 2, 1⟩) ⟨2024, 1, 10⟩ = .ok (some 22) :=
  ⟨by decide, by decide, by decide, by decide,
   days_to_birthday_correct ⟨2024, 1, 10⟩ ⟨1990, 6, 15⟩ 2024
     (by decide) (by decide) (by decide) (by decide),
   by rfl, by rfl⟩

/-- **C3.** For a stored birthday of February 29, `days_to_birthday` does not
special-case non-leap years: when the year used to rebuild the occurrence (the
current year, or the next year when this year's occurrence has already
passed) is not a leap year, the `datetime(year, month, day)` reconstruction
raises an uncaught `ValueError` instead of returning a day count.  (The
second disjunct covers the passed-occurrence case: a year following a leap
year is itself never leap.) -/
theorem days_to_birthday_feb29_raises (t b : DateV)
    (hm : b.month = 2) (hd : b.day = 29)
    (h : isLeapYear t.year = false
         ∨ (isLeapYear t.year = true ∧ dateLt ⟨t.year, 2, 29⟩ t = true)) :
    days_to_birthday (some b) t = .error .valueError := by
  obtain ⟨byr, bm, bd⟩ := b
  dsimp only at hm hd
  subst hm
  subst hd
  rcases h with hleap | ⟨hleap, hlt⟩
  · have hv : validDate ⟨t.year, 2, 29⟩ = false := by
      simp [validDate, daysInMonth, hleap]
    simp [days_to_birthday, pyDate, hv]
  · by_cases hy : 1 ≤ t.year
    · have hv : validDate ⟨t.year, 2, 29⟩ = true := by
        simp [validDate, daysInMonth, hleap]
        omega
      have hnl := isLeapYear_succ_false t.year hleap
      have hv2 : validDate ⟨t.year + 1, 2, 29⟩ = false := by
        simp [validDate, daysInMonth, hnl]
      simp [days_to_birthday, pyDate, hv, hv2, hlt]
    · have hv : validDate ⟨t.year, 2, 29⟩ = false := by
        simp [validDate]
        omega
      simp [days_to_birthday, pyDate, hv]

/-- Witness for `days_to_birthday_feb29_raises`: birthday 1992-02-29, today
2023-01-15 (2023 is not a leap year). -/
theorem days_to_birthday_feb29_raises_witness :
    (⟨1992, 2, 29⟩ : DateV).month = 2
    ∧ (⟨1992, 2, 29⟩ : DateV).day = 29
    ∧ (isLeapYear 2023 = false
       ∨ (isLeapYear 2023 = true ∧ dateLt ⟨2023, 2, 29⟩ ⟨2023, 1, 15⟩ = true))
    ∧ days_to_birthday (some ⟨1992, 2, 29⟩) ⟨2023, 1, 15⟩ = .error .valueError :=
  ⟨rfl, rfl, Or.inl (by decide),
   days_to_birthday_feb29_raises ⟨2023, 1, 15⟩ ⟨1992, 2, 29⟩ rfl rfl
     (Or.inl (by decide))⟩

/-! ## C5: Phone construction versus the written pattern -/

/-- Python's `re.match` of this anchored pattern accepts exactly the strings
the plain pattern accepts, plus those same strings with one extra trailing
newline (Python `$` also matches just before a final newline). -/
theorem pyPhoneMatchL_eq (l : List Char) :
    pyPhoneMatchL l
      = (specPhoneMatchL l || (l.getLast? == some '\n' && specPhoneMatchL l.dropLast)) := by
  cases l with
  | nil => rfl
  | cons c rest =>
    by_cases hc : c = '+'
    · subst hc
      cases rest with
      | nil => rfl
      | cons r rs =>
        simp only [pyPhoneMatchL, specPhoneMatchL, stripPlus, if_pos rfl,
          List.getLast?_cons_cons]
        have hdl : ('+' :: r :: rs).dropLast = '+' :: (r :: rs).dropLast := rfl
        rw [hdl]
        simp [stripPlus]
    · cases rest with
      | nil =>
        simp [pyPhoneMatchL, specPhoneMatchL, stripPlus, hc, digitRun]
      | cons r rs =>
        simp only [pyPhoneMatchL, specPhoneMatchL, stripPlus, if_neg hc,
          List.getLast?_cons_cons]
        have hdl : (c :: r :: rs).dropLast = c :: (r :: rs).dropLast := rfl
        rw [hdl]
        simp [stripPlus, hc]

/-- **C5 (amended).** For every string matching `^\+?\d{9,15}$` read as a
plain regular expression, `Phone` construction succeeds and the stored
`.value` is the input string exactly.  Construction also succeeds on exactly
one further family of strings — a plain match followed by a single trailing
newline, which Python's `re.match` accepts because `$` also matches before a
final newline — and fails with `ValueError` on every other string. -/
theorem Phone_construction (s : String) :
    (specPhoneMatch s = true → Phone.new s = Except.ok ⟨s⟩)
    ∧ (pyPhoneMatch s = true
        ↔ (specPhoneMatch s = true
           ∨ (s.data.getLast? = some '\n' ∧ specPhoneMatchL s.data.dropLast = true)))
    ∧ (pyPhoneMatch s = false → Phone.new s = Except.error PyError.valueError) := by
  have hchar : pyPhoneMatch s
      = (specPhoneMatch s || (s.data.getLast? == some '\n' && specPhoneMatchL s.data.dropLast)) := by
    unfold pyPhoneMatch specPhoneMatch
    exact pyPhoneMatchL_eq s.data
  refine ⟨?_, ?_, ?_⟩
  · intro hspec
    have hpy : pyPhoneMatch s = true := by
      rw [hchar, hspec]
      simp
    simp [Phone.new, Phone.validate, hpy]
  · rw [hchar]
    simp
  · intro hpy
    simp [Phone.new, Phone.validate, hpy]

/-- Witness for `Phone_construction`: a valid phone string round-trips, a
malformed one is rejected. -/
theorem Phone_construction_witness :
    specPhoneMatch "+380501234567" = true
    ∧ Phone.new "+380501234567" = Except.ok ⟨"+380501234567"⟩
    ∧ pyPhoneMatch "abc" = false
    ∧ Phone.new "abc" = Except.error PyError.valueError :=
  ⟨by decide, (Phone_construction "+380501234567").1 (by decide), by decide,
   (Phone_construction "abc").2.2 (by decide)⟩

/-- **C5 (counterexample).** The 10-character string `"123456789\n"` does not
match `^\+?\d{9,15}$` read as a plain regular expression, yet `Phone`
construction succeeds and stores it verbatim, because Python's `re` lets `$`
match just before a trailing newline. -/
theorem Phone_newline_counterexample :
    specPhoneMatch "123456789\n" = false
    ∧ Phone.new "123456789\n" = Except.ok ⟨"123456789\n"⟩ :=
  ⟨by decide, rfl⟩

/-! ## Handler behaviour lemmas -/

/-- Successful `add`: with three tokens, a non-empty name and a phone the
pattern accepts, `add` stores a fresh record holding exactly that one phone
and returns the confirmation text. -/
theorem add_ok (book : Book) (line w name phoneStr : String)
    (hsplit : pySplit line = [w, name, phoneStr])
    (hname : ¬ name = "")
    (hphone : pyPhoneMatch phoneStr = true) :
    add book line = (bookSet book name ⟨name, [⟨phoneStr⟩], none⟩,
      "Contact " ++ name ++ " with phone " ++ phoneStr ++ " has been added.") := by
  unfold add input_error add_core Record.new Name.new Record.add_phone Phone.new Phone.validate
  rw [hsplit]
  simp [hname, hphone]

/-- **C7.** Running `add` twice with the same name constructs a fresh record
each time and the second run overwrites the first with no merge: afterwards
the stored record for `john` holds exactly one phone, `9999999999`. -/
theorem add_overwrites (book : Book) :
    bookGet (add (add book "add john 1234567890").1 "add john 9999999999").1 "john"
      = some ⟨"john", [⟨"9999999999"⟩], none⟩ := by
  rw [add_ok book "add john 1234567890" "add" "john" "1234567890" rfl (by decide) (by decide)]
  rw [add_ok _ "add john 9999999999" "add" "john" "9999999999" rfl (by decide) (by decide)]
  exact bookGet_bookSet_self _ _ _

/-- Witness for `add_overwrites`: the empty starting book. -/
theorem add_overwrites_witness :
    bookGet (add (add [] "add john 1234567890").1 "add john 9999999999").1 "john"
      = some ⟨"john", [⟨"9999999999"⟩], none⟩ :=
  add_overwrites []

/-- **C8.** `change` on a name that is not in the book returns the not-found
message without raising, and returns the book unchanged — no entry is created
or modified. -/
theorem change_not_found (book : Book) (line w name phoneStr : String)
    (hsplit : pySplit line = [w, name, phoneStr])
    (habs : bookGet book name = none) :
    change book line = (book, "Contact with name " ++ name ++ " not found.") := by
  unfold change input_error change_core
  rw [hsplit]
  simp [habs]

/-- Witness for `change_not_found`: `change nosuchname 123` on the empty
book. -/
theorem change_not_found_witness :
    pySplit "change nosuchname 123" = ["change", "nosuchname", "123"]
    ∧ bookGet [] "nosuchname" = none
    ∧ change [] "change nosuchname 123"
        = ([], "Contact with name " ++ "nosuchname" ++ " not found.") :=
  ⟨rfl, rfl, change_not_found [] "change nosuchname 123" "change" "nosuchname" "123" rfl rfl⟩

/-- **C1 (the code violates the invariant).** Evaluating the `change` handler
on a record whose only phone is the valid `"123456789"` with the malformed
replacement `"abc"`: the property setter assigns `_value` *before* running
`validate()`, so when the `ValueError` is raised the record left in the book
already holds the non-matching value `"abc"`; the previous valid value is not
kept. -/
theorem change_stores_invalid_phone :
    change [("john", ⟨"john", [⟨"123456789"⟩], none⟩)] "change john abc"
      = ([("john", ⟨"john", [⟨"abc"⟩], none⟩)], "Please enter a valid command.")
    ∧ pyPhoneMatch "123456789" = true
    ∧ pyPhoneMatch "abc" = false :=
  ⟨rfl, by decide, by decide⟩

/-- **C4 (counterexample).** On an existing contact with an empty phone list,
`change` does not return its confirmation message: the subscript
`record.phones[0]` raises `IndexError` before `edit_phone` is ever called,
and the `input_error` wrapper turns that into the token-count message. -/
theorem change_empty_phones_counterexample :
    change [("john", ⟨"john", [], none⟩)] "change john 123456789"
      = ([("john", ⟨"john", [], none⟩)],
         "Please enter both name and phone number, separated by a space.")
    ∧ "Please enter both name and phone number, separated by a space."
        ≠ "Phone number for contact john changed." :=
  ⟨rfl, by decide⟩

/-- **C4 (amended).** Invoking `change` on an existing contact whose phone
list is empty never reaches `edit_phone`: evaluating `record.phones[0]`
raises `IndexError`, which the `input_error` wrapper converts to the message
"Please enter both name and phone number, separated by a space."; no
confirmation message is returned and the book is left unchanged. -/
theorem change_empty_phones (book : Book) (line w name phoneStr : String) (r : Record)
    (hsplit : pySplit line = [w, name, phoneStr])
    (hget : bookGet book name = some r)
    (hphones : r.phones = []) :
    change book line
      = (book, "Please enter both name and phone number, separated by a space.") := by
  unfold change input_error change_core
  rw [hsplit]
  simp [hget, hphones]

/-- Witness for `change_empty_phones`. -/
theorem change_empty_phones_witness :
    pySplit "change john 123456789" = ["change", "john", "123456789"]
    ∧ bookGet [("john", ⟨"john", [], none⟩)] "john" = some ⟨"john", [], none⟩
    ∧ (⟨"john", [], none⟩ : Record).phones = []
    ∧ change [("john", ⟨"john", [], none⟩)] "change john 123456789"
        = ([("john", ⟨"john", [], none⟩)],
           "Please enter both name and phone number, separated by a space.") :=
  ⟨rfl, rfl, rfl,
   change_empty_phones [("john", ⟨"john", [], none⟩)] "change john 123456789"
     "change" "john" "123456789" ⟨"john", [], none⟩ rfl rfl rfl⟩

/-- **C10.** An input line to `add` with fewer than three whitespace-separated
tokens makes the three-way tuple unpacking of `split()` raise `ValueError`,
not `IndexError`; the reply is therefore "Please enter a valid command.", and
the token-count message about name and phone number is never produced by a
token-count failure in `add`. -/
theorem add_few_tokens (book : Book) (line : String)
    (h : (pySplit line).length < 3) :
    add book line = (book, "Please enter a valid command.")
    ∧ (add book line).2
        ≠ "Please enter both name and phone number, separated by a space." := by
  have hmain : add book line = (book, "Please enter a valid command.") := by
    unfold add input_error add_core
    cases hs : pySplit line with
    | nil => rfl
    | cons a t1 =>
      cases t1 with
      | nil => rfl
      | cons b t2 =>
        cases t2 with
        | nil => rfl
        | cons c t3 =>
          rw [hs] at h
          simp at h
          omega
  refine ⟨hmain, ?_⟩
  rw [hmain]
  show "Please enter a valid command."
      ≠ "Please enter both name and phone number, separated by a space."
  decide

/-- Witness for `add_few_tokens`: the two-token line `add john`. -/
theorem add_few_tokens_witness :
    (pySplit "add john").length < 3
    ∧ (add [] "add john" = ([], "Please enter a valid command.")
       ∧ (add [] "add john").2
           ≠ "Please enter both name and phone number, separated by a space.") :=
  ⟨by decide, add_few_tokens [] "add john" (by decide)⟩

/-! ## C6: batching structure of `iterator` -/


theorem range'_shift (k s step : Nat) :
    List.range' (s + step) k step = (List.range' s k step).map (· + step) := by
  induction k generalizing s with
  | zero => rfl
  | succ k ih =>
    rw [List.range'_succ, List.range'_succ]
    simp only [List.map_cons]
    rw [ih]

theorem chunksRec_flatten (n : Nat) (l : List α) :
    (chunksRec n l).flatten = l := by
  induction l using chunksRec.induct n with
  | case1 => simp [chunksRec]
  | case2 c cs ih =>
    rw [chunksRec]
    simp only [List.flatten_cons, List.cons_append]
    rw [ih, List.take_append_drop]

/-- The stepped index loop `range(0, len, N)` with slicing produces exactly
the recursive chunking. -/
theorem pyChunks_eq_chunksRec (n : Nat) (hn : 0 < n) (l : List α) :
    pyChunks l n = chunksRec n l := by
  induction l using chunksRec.induct n with
  | case1 =>
    simp [pyChunks, chunksRec, Nat.div_eq_of_lt (by omega : n - 1 < n)]
  | case2 c cs ih =>
    have hk : ((c :: cs).length + n - 1) / n = ((cs.drop (n-1)).length + n - 1) / n + 1 := by
      rw [List.length_drop, List.length_cons]
      rcases Nat.lt_or_ge cs.length n with hm | hm
      · have h1 : cs.length - (n - 1) = 0 := by omega
        rw [h1]
        have h2 : (0 + n - 1) / n = 0 := Nat.div_eq_of_lt (by omega)
        rw [h2]
        have h3 : cs.length + 1 + n - 1 = cs.length + n := by omega
        rw [h3, Nat.add_div_right _ hn, Nat.div_eq_of_lt hm]
      · have h1 : cs.length - (n - 1) + n - 1 = cs.length := by omega
        rw [h1]
        have h3 : cs.length + 1 + n - 1 = cs.length + n := by omega
        rw [h3, Nat.add_div_right _ hn]
    rw [chunksRec, ← ih]
    unfold pyChunks
    rw [hk, List.range'_succ]
    simp only [List.map_cons]
    congr 1
    · rw [List.drop_zero]
      obtain ⟨m, rfl⟩ : ∃ m, n = m + 1 := ⟨n - 1, by omega⟩
      simp [List.take_succ_cons]
    · have hsh := range'_shift (((cs.drop (n-1)).length + n - 1) / n) 0 n
      rw [Nat.zero_add] at hsh
      simp only [Nat.zero_add]
      rw [hsh, List.map_map]
      apply List.map_congr_left
      intro i hi
      simp only [Function.comp_apply]
      rw [List.drop_drop]
      have h5 : i + n = (i + (n - 1)) + 1 := by omega
      rw [h5, List.drop_succ_cons, Nat.add_comm i (n - 1)]

theorem chunksRec_mem (n : Nat) (hn : 0 < n) (l : List α) :
    ∀ b ∈ chunksRec n l, b.length ≤ n ∧ b ≠ [] := by
  induction l using chunksRec.induct n with
  | case1 => simp [chunksRec]
  | case2 c cs ih =>
    rw [chunksRec]
    intro b hb
    rcases List.mem_cons.mp hb with hb | hb
    · subst hb
      refine ⟨?_, by simp⟩
      simp [List.length_take]
      omega
    · exact ih b hb

theorem chunksRec_dropLast (n : Nat) (hn : 0 < n) (l : List α) :
    ∀ b ∈ (chunksRec n l).dropLast, b.length = n := by
  induction l using chunksRec.induct n with
  | case1 => simp [chunksRec]
  | case2 c cs ih =>
    rw [chunksRec]
    intro b hb
    cases hrest : chunksRec n (cs.drop (n - 1)) with
    | nil =>
      rw [hrest] at hb
      simp at hb
    | cons hd tl =>
      rw [hrest] at hb
      rw [List.dropLast_cons₂] at hb
      rcases List.mem_cons.mp hb with hb | hb
      · subst hb
        have hne : cs.drop (n - 1) ≠ [] := by
          intro hc
          rw [hc] at hrest
          simp [chunksRec] at hrest
        have hlen : n - 1 < cs.length := by
          by_contra hcon
          push_neg at hcon
          exact hne (List.drop_eq_nil_of_le hcon)
        simp [List.length_take]
        omega
      · rw [← hrest] at hb
        exact ih b hb

/-- `iterator` is the chunking of the rendered record list. -/
theorem iterator_eq_pyChunks (book : Book) (n : Nat) :
    AddressBook.iterator book n = pyChunks ((book.map Prod.snd).map renderRecord) n := by
  unfold AddressBook.iterator pyChunks
  rw [List.length_map]
  apply List.map_congr_left
  intro i hi
  simp [List.map_take, List.map_drop]

/-- **C6.** For every address book and every `n > 0`, `iterator(n)` yields a
finite sequence of batches of rendered (string) records: concatenated in
order they are exactly the rendered records in stored order (so batches are
non-overlapping and cover everything exactly once), every batch is non-empty
with at most `n` elements, and every batch except possibly the last has
exactly `n` elements. -/
theorem iterator_batches (book : Book) (n : Nat) (hn : 0 < n) :
    (AddressBook.iterator book n).flatten = (book.map Prod.snd).map renderRecord
    ∧ (∀ b ∈ AddressBook.iterator book n, b.length ≤ n ∧ b ≠ [])
    ∧ (∀ b ∈ (AddressBook.iterator book n).dropLast, b.length = n) := by
  rw [iterator_eq_pyChunks, pyChunks_eq_chunksRec n hn]
  exact ⟨chunksRec_flatten n _, chunksRec_mem n hn _, chunksRec_dropLast n hn _⟩


/-- Witness for `iterator_batches`: `iterator(2)` over 5 records — batch
sizes are `[2, 2, 1]`. -/
theorem iterator_batches_witness :
    (0 : Nat) < 2
    ∧ ((AddressBook.iterator iterBook5 2).flatten
         = (iterBook5.map Prod.snd).map renderRecord
       ∧ (∀ b ∈ AddressBook.iterator iterBook5 2, b.length ≤ 2 ∧ b ≠ [])
       ∧ (∀ b ∈ (AddressBook.iterator iterBook5 2).dropLast, b.length = 2))
    ∧ (AddressBook.iterator iterBook5 2).map List.length = [2, 2, 1] :=
  ⟨by decide, iterator_batches iterBook5 2 (by decide), by decide⟩

/-! ## C9: command dispatch -/

/-- `find?` returns `some a` exactly when `a` is the first element of the
list satisfying the predicate. -/
theorem find?_eq_some_split {α : Type} (p : α → Bool) (l : List α) (a : α) :
    l.find? p = some a
      ↔ p a = true ∧ ∃ l1 l2, l = l1 ++ a :: l2 ∧ ∀ x ∈ l1, p x = false := by
  induction l with
  | nil => simp
  | cons c cs ih =>
    by_cases hc : p c = true
    · rw [List.find?_cons_of_pos _ hc]
      constructor
      · intro h
        injection h with h
        subst h
        exact ⟨hc, [], cs, rfl, by simp⟩
      · rintro ⟨hpa, l1, l2, heq, hall⟩
        cases l1 with
        | nil =>
          simp at heq
          rw [heq.1]
        | cons d ds =>
          simp at heq
          have hd := hall d (by simp)
          rw [← heq.1, hc] at hd
          cases hd
    · rw [List.find?_cons_of_neg _ hc]
      rw [ih]
      constructor
      · rintro ⟨hpa, l1, l2, heq, hall⟩
        refine ⟨hpa, c :: l1, l2, by rw [heq]; rfl, ?_⟩
        intro x hx
        rcases List.mem_cons.mp hx with h | h
        · subst h
          exact eq_false_of_ne_true hc
        · exact hall x h
      · rintro ⟨hpa, l1, l2, heq, hall⟩
        cases l1 with
        | nil =>
          simp at heq
          rw [heq.1] at hc
          exact absurd hpa hc
        | cons d ds =>
          simp at heq
          exact ⟨hpa, ds, l2, heq.2, fun x hx => hall x (by simp [hx])⟩

/-- **C9.** Dispatch lower-cases the input line and selects the first
command, in declared order (hello, add, change, phone, show all, exit),
whose keyword is a prefix of the lowered line; when no keyword is a prefix,
the loop iteration prints "Unknown command, try again." and continues (the
book is untouched and the loop does not terminate). -/
theorem command_dispatch (book : Book) (line : String) (c : Cmd) :
    ((command_handler line).1 = some c
      ↔ ∃ kw l1 l2, COMMANDS = l1 ++ (c, kw) :: l2
          ∧ pyStartsWith (pyLower line) kw = true
          ∧ ∀ ck ∈ l1, pyStartsWith (pyLower line) ck.2 = false)
    ∧ ((∀ ck ∈ COMMANDS, pyStartsWith (pyLower line) ck.2 = false)
        → mainStep book line = (book, "Unknown command, try again.", false)) := by
  constructor
  · constructor
    · intro h
      unfold command_handler at h
      cases hf : COMMANDS.find? (fun ck => pyStartsWith (pyLower line) ck.2) with
      | none =>
        rw [hf] at h
        simp at h
      | some ck =>
        rw [hf] at h
        simp at h
        obtain ⟨c0, kw0⟩ := ck
        simp at h
        subst h
        obtain ⟨hp, l1, l2, heq, hall⟩ :=
          (find?_eq_some_split (fun ck => pyStartsWith (pyLower line) ck.2)
            COMMANDS (c0, kw0)).mp hf
        exact ⟨kw0, l1, l2, heq, hp, hall⟩
    · rintro ⟨kw, l1, l2, heq, hkw, hall⟩
      have hf : COMMANDS.find? (fun ck => pyStartsWith (pyLower line) ck.2)
          = some (c, kw) :=
        (find?_eq_some_split (fun ck => pyStartsWith (pyLower line) ck.2)
          COMMANDS (c, kw)).mpr ⟨hkw, l1, l2, heq, hall⟩
      unfold command_handler
      rw [hf]
  · intro hnone
    have hf : COMMANDS.find? (fun ck => pyStartsWith (pyLower line) ck.2) = none := by
      rw [List.find?_eq_none]
      intro x hx
      simp [hnone x hx]
    unfold mainStep command_handler
    rw [hf]

/-- Witness for `command_dispatch`: the upper-case line `ADD john 1234567890`
selects the `add` handler (case-insensitive prefix match, with `hello` tried
first and rejected), and a non-matching line produces the unknown-command
message while the loop continues. -/
theorem command_dispatch_witness :
    (command_handler "ADD john 1234567890").1 = some Cmd.add
    ∧ mainStep [] "foobar" = ([], "Unknown command, try again.", false) :=
  ⟨(command_dispatch [] "ADD john 1234567890" Cmd.add).1.mpr
     ⟨"add", [(.hello, "hello")],
      [(.change, "change"), (.phone, "phone"), (.showAll, "show all"), (.exit, "exit")],
      rfl, by decide, by decide⟩,
   (command_dispatch [] "foobar" Cmd.hello).2 (by decide)⟩
